import Mathlib

/-!
Verification of the in-memory task-list store of the mastering-react
tutorial repository (the TaskStore of the spec).

The store logic lives in src/state-and-hooks.md (lines 98-124) and
src/README.md (lines 156-205, the TaskProvider context value):

  addTask:        id = Math.floor(Math.random() * 10000) + 1;
                  newTask = { id, ...task }; setTasks([...tasks, newTask])
  deleteTask:     setTasks(tasks.filter((task) => task.id !== id))
  toggleReminder: setTasks(tasks.map((task) =>
                    task.id === id ? { ...task, reminder: !task.reminder } : task))

The empty-text guard lives in the caller, AddTaskForm.onSubmit
(src/README.md lines 310-320): if (!text) { alert(...); return; } else
addTask({ text, day, reminder }).

The embedding below makes the store state (the tasks array) an explicit
List, and makes the one random draw of addTask an explicit rational
parameter r with 0 ≤ r < 1 standing for the value of Math.random().
-/

namespace TaskManager

/-- A task record: the shape { id, text, day, reminder } used throughout
src/state-and-hooks.md and src/README.md. -/
structure Task where
  id : Int
  text : String
  day : String
  reminder : Bool
deriving Repr, DecidableEq

/-- The id computation of addTask: Math.floor(Math.random() * 10000) + 1,
with the draw of Math.random() passed in as the rational r. -/
def mkId (r : ℚ) : Int := ⌊r * 10000⌋ + 1

/-- addTask from the TaskProvider context value: build the new record with
a fresh random id and append it to the tasks array. Returns the created
record together with the new store state. -/
def addTask (r : ℚ) (text day : String) (reminder : Bool) (tasks : List Task) :
    Task × List Task :=
  let newTask : Task := { id := mkId r, text := text, day := day, reminder := reminder }
  (newTask, tasks ++ [newTask])

/-- deleteTask from the TaskProvider context value:
tasks.filter((task) => task.id !== id). -/
def deleteTask (id : Int) (tasks : List Task) : List Task :=
  tasks.filter (fun task => task.id != id)

/-- toggleReminder from the TaskProvider context value:
tasks.map((task) => task.id === id ? { ...task, reminder: !task.reminder } : task). -/
def toggleReminder (id : Int) (tasks : List Task) : List Task :=
  tasks.map (fun task => if task.id == id then { task with reminder := !task.reminder } else task)

/-- The error surfaced by the empty-text guard of AddTaskForm.onSubmit;
the spec names it InvalidInput (in the source it was a blocking alert). -/
inductive AddError where
  | invalidInput
deriving Repr, DecidableEq

/-- The full add path: AddTaskForm.onSubmit guarding addTask. An empty
text (JS: !text) raises the alert and returns without touching the store,
modeled as the InvalidInput error; otherwise addTask runs. -/
def add (r : ℚ) (text day : String) (reminder : Bool) (tasks : List Task) :
    Except AddError (Task × List Task) :=
  if text = "" then .error .invalidInput
  else .ok (addTask r text day reminder tasks)

/-- The store state after an add call: unchanged when the guard fired,
otherwise the state produced by addTask. -/
def runAdd (r : ℚ) (text day : String) (reminder : Bool) (tasks : List Task) : List Task :=
  match add r text day reminder tasks with
  | .error _ => tasks
  | .ok p => p.2

/-- seed: the one-time setTasks(initial) call of the TaskProvider effect,
replacing the whole collection. -/
def seed (initial : List Task) (_tasks : List Task) : List Task := initial

/-- list(): the read accessor; the context simply exposes the tasks array. -/
def list (tasks : List Task) : List Task := tasks

/-- One add request: the random draw together with the form fields. -/
structure AddInput where
  r : ℚ
  text : String
  day : String
  reminder : Bool

/-- Run a sequence of add calls left to right. -/
def runAdds (inputs : List AddInput) (tasks : List Task) : List Task :=
  inputs.foldl (fun acc p => runAdd p.r p.text p.day p.reminder acc) tasks

theorem add_of_ne_empty (r : ℚ) (text day : String) (b : Bool) (s : List Task)
    (h : text ≠ "") :
    add r text day b s =
      .ok ({ id := mkId r, text := text, day := day, reminder := b },
           s ++ [{ id := mkId r, text := text, day := day, reminder := b }]) := by
  simp [add, addTask, h]

theorem runAdd_of_ne_empty (r : ℚ) (text day : String) (b : Bool) (s : List Task)
    (h : text ≠ "") :
    runAdd r text day b s =
      s ++ [{ id := mkId r, text := text, day := day, reminder := b }] := by
  simp [runAdd, add_of_ne_empty r text day b s h]

theorem toggleReminder_cons (id : Int) (t : Task) (ts : List Task) :
    toggleReminder id (t :: ts) =
      (if t.id == id then { t with reminder := !t.reminder } else t) :: toggleReminder id ts := rfl

theorem toggleReminder_involution (id : Int) (s : List Task) :
    toggleReminder id (toggleReminder id s) = s := by
  induction s with
  | nil => rfl
  | cons t ts ih =>
    rw [toggleReminder_cons, toggleReminder_cons, ih]
    by_cases h : t.id = id
    · subst h
      simp
    · simp [h]

theorem toggleReminder_absent (id : Int) (s : List Task) (h : ∀ t ∈ s, t.id ≠ id) :
    toggleReminder id s = s := by
  induction s with
  | nil => rfl
  | cons t ts ih =>
    rw [toggleReminder_cons]
    have ht : ¬(t.id = id) := h t (List.mem_cons_self t ts)
    rw [if_neg (by simpa using ht)]
    rw [ih fun u hu => h u (List.mem_cons_of_mem t hu)]

/-- C2: for every store state, day and reminder argument (and any random
draw), add with empty text fails with InvalidInput and leaves list()
unchanged; the collection is not mutated on this error. -/
theorem add_empty_text_invalid_input_no_mutation
    (r : ℚ) (day : String) (reminder : Bool) (tasks : List Task) :
    add r "" day reminder tasks = .error .invalidInput ∧
    list (runAdd r "" day reminder tasks) = list tasks := by
  constructor
  · simp [add]
  · simp [list, runAdd, add]

/-- C4: remove of an id not present in the store leaves list() unchanged
(a silent no-op, not an error), and remove is idempotent: removing the
same id twice yields exactly the state of removing it once. -/
theorem deleteTask_noop_and_idempotent (id : Int) (s : List Task) :
    ((∀ t ∈ s, t.id ≠ id) → list (deleteTask id s) = list s) ∧
    deleteTask id (deleteTask id s) = deleteTask id s := by
  constructor
  · intro h
    simp only [list, deleteTask]
    rw [List.filter_eq_self]
    intro t ht
    simpa using h t ht
  · simp [deleteTask, List.filter_filter]

/-- C4 witness: remove of the absent id 2 leaves a concrete one-task store
unchanged, and removing id 1 from it twice equals removing it once. -/
theorem deleteTask_noop_and_idempotent_witness :
    (∀ t ∈ [Task.mk 1 "a" "" false], t.id ≠ 2) ∧
    list (deleteTask 2 [Task.mk 1 "a" "" false]) = list [Task.mk 1 "a" "" false] ∧
    deleteTask 1 (deleteTask 1 [Task.mk 1 "a" "" false]) =
      deleteTask 1 [Task.mk 1 "a" "" false] := by
  have h2 : ∀ t ∈ [Task.mk 1 "a" "" false], t.id ≠ 2 := by decide
  exact ⟨h2, (deleteTask_noop_and_idempotent 2 [Task.mk 1 "a" "" false]).1 h2,
    (deleteTask_noop_and_idempotent 1 [Task.mk 1 "a" "" false]).2⟩

/-- C5: toggle flips the reminder flag of the task with matching id exactly
once per call (position by position, a task's flag is negated when its id
matches and kept otherwise), and toggling the same id twice restores the
store to exactly its original state (involution). -/
theorem toggleReminder_flips_once_and_involution (id : Int) (s : List Task) :
    (∀ i : Nat, ((toggleReminder id s)[i]?).map Task.reminder
        = (s[i]?).map (fun t => if t.id = id then !t.reminder else t.reminder)) ∧
    toggleReminder id (toggleReminder id s) = s := by
  constructor
  · intro i
    simp only [toggleReminder, List.getElem?_map]
    cases h : s[i]? with
    | none => rfl
    | some t =>
      by_cases hid : t.id = id
      · simp [hid]
      · simp [hid]
  · exact toggleReminder_involution id s

/-- C9: remove deletes every task whose id equals the argument, not just
the first match: after a single remove(id) call, no task with that id is
left in the collection. -/
theorem deleteTask_removes_all_matches (id : Int) (s : List Task) (t : Task)
    (ht : t ∈ deleteTask id s) : t.id ≠ id := by
  simp only [deleteTask, List.mem_filter, bne_iff_ne, ne_eq] at ht
  exact ht.2

/-- C9 witness: on a store holding two tasks with the duplicated id 1 and
one task with id 2, removing id 1 leaves only the id-2 task, and that
surviving task's id differs from 1 by the theorem. -/
theorem deleteTask_removes_all_matches_witness :
    Task.mk 2 "c" "" false ∈
      deleteTask 1 [Task.mk 1 "a" "" false, Task.mk 1 "b" "" true, Task.mk 2 "c" "" false] ∧
    (Task.mk 2 "c" "" false).id ≠ 1 := by
  have hm : Task.mk 2 "c" "" false ∈
      deleteTask 1 [Task.mk 1 "a" "" false, Task.mk 1 "b" "" true, Task.mk 2 "c" "" false] := by
    decide
  exact ⟨hm, deleteTask_removes_all_matches 1 _ _ hm⟩

/-- C8: the concrete scenario: seed the store with the two example tasks,
toggle id 1, remove id 2; list() is exactly the Doctor task with its
reminder turned off. -/
theorem seed_toggle_remove_scenario :
    list (deleteTask 2 (toggleReminder 1 (seed
      [Task.mk 1 "Doctor" "Feb 5" true, Task.mk 2 "Meeting" "Feb 6" true] []))) =
    [Task.mk 1 "Doctor" "Feb 5" false] := by
  decide

/-- C10: every id assigned by add lies in the closed range 1..10000: for
every random draw r with 0 ≤ r < 1, the computed id floor(r * 10000) + 1
is between 1 and 10000 inclusive. -/
theorem mkId_in_range (r : ℚ) (h0 : 0 ≤ r) (h1 : r < 1) :
    1 ≤ mkId r ∧ mkId r ≤ 10000 := by
  have hf0 : (0 : ℤ) ≤ ⌊r * 10000⌋ :=
    Int.floor_nonneg.mpr (mul_nonneg h0 (by norm_num))
  have hf1 : ⌊r * 10000⌋ < (10000 : ℤ) := Int.floor_lt.mpr (by push_cast; linarith)
  unfold mkId
  omega

/-- C10 witness: at the concrete draw r = 1/2 the hypotheses hold and the
computed id is 5001, inside 1..10000. -/
theorem mkId_in_range_witness :
    ((0 : ℚ) ≤ 1/2 ∧ (1/2 : ℚ) < 1) ∧ (1 ≤ mkId (1/2) ∧ mkId (1/2) ≤ 10000) ∧
    mkId (1/2) = 5001 :=
  ⟨⟨by norm_num, by norm_num⟩, mkId_in_range (1/2) (by norm_num) (by norm_num),
   by norm_num [mkId]⟩

/-- C1: the id-uniqueness invariant fails on the code: the store state
reached by two add calls whose random draws are both 0 holds two tasks
that share the id 1, so the ids present in the store are not pairwise
distinct. -/
theorem duplicate_ids_reachable :
    ((runAdd 0 "B" "" false (runAdd 0 "A" "" false [])).map Task.id = [1, 1]) ∧
    ¬ (runAdd 0 "B" "" false (runAdd 0 "A" "" false [])).Pairwise
        (fun a b => a.id ≠ b.id) := by
  have hm : mkId 0 = 1 := by norm_num [mkId]
  have hA := runAdd_of_ne_empty 0 "A" "" false [] (by decide)
  rw [hm] at hA
  have hB := runAdd_of_ne_empty 0 "B" "" false (runAdd 0 "A" "" false []) (by decide)
  rw [hA, hm] at hB
  rw [hA, hB]
  exact ⟨by decide, by decide⟩

/-- C3 counterexample: with the three random draws all 0, add A, add B,
add C does produce the list [A, B, C], but every task gets the id 1, so
removing the id of B empties the store instead of leaving [A, C]. -/
theorem order_remove_counterexample :
    ((runAdds [AddInput.mk 0 "A" "" false, AddInput.mk 0 "B" "" false,
        AddInput.mk 0 "C" "" false] []).map Task.text = ["A", "B", "C"]) ∧
    deleteTask 1 (runAdds [AddInput.mk 0 "A" "" false, AddInput.mk 0 "B" "" false,
        AddInput.mk 0 "C" "" false] []) = [] ∧
    deleteTask 1 (runAdds [AddInput.mk 0 "A" "" false, AddInput.mk 0 "B" "" false,
        AddInput.mk 0 "C" "" false] []) ≠
      [Task.mk 1 "A" "" false, Task.mk 1 "C" "" false] := by
  have hm : mkId 0 = 1 := by norm_num [mkId]
  have hs : runAdds [AddInput.mk 0 "A" "" false, AddInput.mk 0 "B" "" false,
      AddInput.mk 0 "C" "" false] [] =
      runAdd 0 "C" "" false (runAdd 0 "B" "" false (runAdd 0 "A" "" false [])) := rfl
  have hstore : runAdds [AddInput.mk 0 "A" "" false, AddInput.mk 0 "B" "" false,
      AddInput.mk 0 "C" "" false] [] =
      [Task.mk 1 "A" "" false, Task.mk 1 "B" "" false, Task.mk 1 "C" "" false] := by
    rw [hs, runAdd_of_ne_empty _ _ _ _ _ (by decide : ("A" : String) ≠ ""),
        runAdd_of_ne_empty _ _ _ _ _ (by decide : ("B" : String) ≠ ""),
        runAdd_of_ne_empty _ _ _ _ _ (by decide : ("C" : String) ≠ "")]
    simp [hm]
  refine ⟨?_, ?_, ?_⟩ <;> rw [hstore] <;> decide

/-- C3 amended: add appends the created task to the end and the store
preserves insertion order: for all draws, add A, add B, add C from the
empty store yields list() = [A, B, C]; and provided the drawn id of B
differs from the drawn ids of A and of C (which the random draws do not
guarantee), removing B's id yields [A, C]. -/
theorem order_preservation_amended (r1 r2 r3 : ℚ) (x y z d1 d2 d3 : String)
    (b1 b2 b3 : Bool) (hx : x ≠ "") (hy : y ≠ "") (hz : z ≠ "") :
    runAdds [AddInput.mk r1 x d1 b1, AddInput.mk r2 y d2 b2, AddInput.mk r3 z d3 b3] [] =
      [Task.mk (mkId r1) x d1 b1, Task.mk (mkId r2) y d2 b2, Task.mk (mkId r3) z d3 b3] ∧
    (mkId r2 ≠ mkId r1 → mkId r2 ≠ mkId r3 →
      deleteTask (mkId r2)
          (runAdds [AddInput.mk r1 x d1 b1, AddInput.mk r2 y d2 b2, AddInput.mk r3 z d3 b3] []) =
        [Task.mk (mkId r1) x d1 b1, Task.mk (mkId r3) z d3 b3]) := by
  have hs : runAdds [AddInput.mk r1 x d1 b1, AddInput.mk r2 y d2 b2, AddInput.mk r3 z d3 b3] [] =
      runAdd r3 z d3 b3 (runAdd r2 y d2 b2 (runAdd r1 x d1 b1 [])) := rfl
  have hstore : runAdds [AddInput.mk r1 x d1 b1, AddInput.mk r2 y d2 b2,
      AddInput.mk r3 z d3 b3] [] =
      [Task.mk (mkId r1) x d1 b1, Task.mk (mkId r2) y d2 b2, Task.mk (mkId r3) z d3 b3] := by
    rw [hs, runAdd_of_ne_empty _ _ _ _ _ hx, runAdd_of_ne_empty _ _ _ _ _ hy,
        runAdd_of_ne_empty _ _ _ _ _ hz]
    simp
  refine ⟨hstore, ?_⟩
  intro h21 h23
  rw [hstore]
  simp [deleteTask, Ne.symm h21, Ne.symm h23, h21, h23]

/-- C3 witness: at the concrete draws 0, 1/2, 1/4 the three texts are
non-empty and the drawn ids 1, 5001, 2501 are distinct; the three adds
yield [A, B, C] in insertion order, and removing B's id 5001 yields
[A, C]. -/
theorem order_preservation_amended_witness :
    runAdds [AddInput.mk 0 "A" "" false, AddInput.mk (1/2) "B" "" false,
        AddInput.mk (1/4) "C" "" false] [] =
      [Task.mk 1 "A" "" false, Task.mk 5001 "B" "" false, Task.mk 2501 "C" "" false] ∧
    deleteTask 5001 (runAdds [AddInput.mk 0 "A" "" false, AddInput.mk (1/2) "B" "" false,
        AddInput.mk (1/4) "C" "" false] []) =
      [Task.mk 1 "A" "" false, Task.mk 2501 "C" "" false] := by
  have h0 : mkId 0 = 1 := by norm_num [mkId]
  have h2 : mkId (1/2) = 5001 := by norm_num [mkId]
  have h4 : mkId (1/4) = 2501 := by norm_num [mkId]
  have h := order_preservation_amended 0 (1/2) (1/4) "A" "B" "C" "" "" "" false false false
    (by decide) (by decide) (by decide)
  have hd1 : mkId (1/2) ≠ mkId 0 := by rw [h0, h2]; decide
  have hd3 : mkId (1/2) ≠ mkId (1/4) := by rw [h2, h4]; decide
  have hc : runAdds [AddInput.mk 0 "A" "" false, AddInput.mk (1/2) "B" "" false,
      AddInput.mk (1/4) "C" "" false] [] =
        [Task.mk (mkId 0) "A" "" false, Task.mk (mkId (1/2)) "B" "" false,
         Task.mk (mkId (1/4)) "C" "" false] ∧
      deleteTask (mkId (1/2)) (runAdds [AddInput.mk 0 "A" "" false,
        AddInput.mk (1/2) "B" "" false, AddInput.mk (1/4) "C" "" false] []) =
        [Task.mk (mkId 0) "A" "" false, Task.mk (mkId (1/4)) "C" "" false] :=
    ⟨h.1, h.2 hd1 hd3⟩
  rw [h0, h2, h4] at hc
  exact hc

/-- C6: toggle mutates only the reminder field of the matching task: the
length is unchanged, every position keeps its id, text and day (so the
order is unchanged), every task whose id differs from the argument is
wholly unchanged, and if no task carries the id the state is unchanged. -/
theorem toggleReminder_frame (id : Int) (s : List Task) :
    (toggleReminder id s).length = s.length ∧
    (∀ i : Nat, ((toggleReminder id s)[i]?).map Task.id = (s[i]?).map Task.id) ∧
    (∀ i : Nat, ((toggleReminder id s)[i]?).map Task.text = (s[i]?).map Task.text) ∧
    (∀ i : Nat, ((toggleReminder id s)[i]?).map Task.day = (s[i]?).map Task.day) ∧
    (∀ i : Nat, ∀ t : Task, s[i]? = some t → t.id ≠ id → (toggleReminder id s)[i]? = some t) ∧
    ((∀ t ∈ s, t.id ≠ id) → toggleReminder id s = s) := by
  refine ⟨by simp [toggleReminder], ?_, ?_, ?_, ?_, toggleReminder_absent id s⟩
  · intro i
    simp only [toggleReminder, List.getElem?_map]
    cases h : s[i]? with
    | none => rfl
    | some t =>
      by_cases hid : t.id = id
      · simp [hid]
      · simp [hid]
  · intro i
    simp only [toggleReminder, List.getElem?_map]
    cases h : s[i]? with
    | none => rfl
    | some t =>
      by_cases hid : t.id = id
      · simp [hid]
      · simp [hid]
  · intro i
    simp only [toggleReminder, List.getElem?_map]
    cases h : s[i]? with
    | none => rfl
    | some t =>
      by_cases hid : t.id = id
      · simp [hid]
      · simp [hid]
  · intro i t hsome hneq
    simp only [toggleReminder, List.getElem?_map, hsome, Option.map_some]
    simp [hneq]

/-- C6 witness: on the one-task store holding the id-2 task, toggling
id 1 keeps the task at position 0 unchanged and keeps the whole state
unchanged, the task's id being different from 1. -/
theorem toggleReminder_frame_witness :
    ((Task.mk 2 "a" "d" true).id ≠ 1) ∧
    (∀ t ∈ [Task.mk 2 "a" "d" true], t.id ≠ 1) ∧
    (toggleReminder 1 [Task.mk 2 "a" "d" true])[0]? = some (Task.mk 2 "a" "d" true) ∧
    toggleReminder 1 [Task.mk 2 "a" "d" true] = [Task.mk 2 "a" "d" true] := by
  have h1 : ([Task.mk 2 "a" "d" true] : List Task)[0]? = some (Task.mk 2 "a" "d" true) := rfl
  have h2 : (Task.mk 2 "a" "d" true).id ≠ 1 := by decide
  have h3 : ∀ t ∈ [Task.mk 2 "a" "d" true], t.id ≠ 1 := by decide
  exact ⟨h2, h3,
    (toggleReminder_frame 1 [Task.mk 2 "a" "d" true]).2.2.2.2.1 0 _ h1 h2,
    (toggleReminder_frame 1 [Task.mk 2 "a" "d" true]).2.2.2.2.2 h3⟩

theorem runAdds_length (inputs : List AddInput) :
    ∀ s : List Task, (∀ p ∈ inputs, p.text ≠ "") →
      (runAdds inputs s).length = s.length + inputs.length := by
  induction inputs with
  | nil => intro s _; simp [runAdds]
  | cons p ps ih =>
    intro s h
    have hp : p.text ≠ "" := h p (List.mem_cons_self p ps)
    have hps : ∀ q ∈ ps, q.text ≠ "" := fun q hq => h q (List.mem_cons_of_mem p hq)
    have step : runAdds (p :: ps) s = runAdds ps (runAdd p.r p.text p.day p.reminder s) := rfl
    rw [step, ih _ hps, runAdd_of_ne_empty _ _ _ _ _ hp]
    simp only [List.length_append, List.length_cons, List.length_nil]
    omega

/-- C7: for every sequence of add calls each with non-empty text, starting
from the empty store, list() afterwards has exactly as many tasks as there
were adds; and each single add with non-empty text returns the created
record and grows the collection by exactly one. -/
theorem add_sequence_length (inputs : List AddInput)
    (h : ∀ p ∈ inputs, p.text ≠ "") :
    (list (runAdds inputs [])).length = inputs.length ∧
    (∀ (r : ℚ) (text day : String) (b : Bool) (s : List Task), text ≠ "" →
      add r text day b s =
        .ok ({ id := mkId r, text := text, day := day, reminder := b },
             s ++ [{ id := mkId r, text := text, day := day, reminder := b }]) ∧
      (runAdd r text day b s).length = s.length + 1) := by
  refine ⟨by simpa [list] using runAdds_length inputs [] h, ?_⟩
  intro r text day b s hx
  refine ⟨add_of_ne_empty r text day b s hx, ?_⟩
  rw [runAdd_of_ne_empty r text day b s hx]
  simp

/-- C7 witness: a concrete two-add sequence with non-empty texts leaves
exactly two tasks in the store. -/
theorem add_sequence_length_witness :
    (∀ p ∈ [AddInput.mk 0 "A" "" false, AddInput.mk (1/2) "B" "x" true], p.text ≠ "") ∧
    (list (runAdds [AddInput.mk 0 "A" "" false, AddInput.mk (1/2) "B" "x" true] [])).length = 2 := by
  have h : ∀ p ∈ [AddInput.mk 0 "A" "" false, AddInput.mk (1/2) "B" "x" true], p.text ≠ "" := by
    intro p hp
    rcases List.mem_cons.mp hp with rfl | hp'
    · decide
    · rcases List.mem_cons.mp hp' with rfl | hp''
      · decide
      · cases hp''
  exact ⟨h, (add_sequence_length _ h).1⟩

end TaskManager
